import Mathlib

/-!
Verification development for the flox-connectors repository.

This file shallowly embeds the data model and the operations of the
connector layer (authenticated REST clients, venue message handlers,
the timeout order tracker, the rate-limit policy, the curl session
pool and the connector start/stop logic) as executable Lean
definitions, translated from the C++ sources, and proves properties
of the embedding.

Modelling conventions:
* byte sequences are `List Nat` (each entry a byte value);
* C++ `std::string` is Lean `String` (appends are byte concatenation
  for the ASCII data involved);
* `double` values produced by `safeParseDouble` are modelled as exact
  rationals of the decimal literal (overflow/underflow rejection is
  not modelled; no property below depends on it);
* venue frames are represented by their parsed field structure - the
  JSON parser (simdjson) is an external collaborator, so handlers are
  embedded from the point where the fields have been extracted;
* side effects (logging, callbacks into the order tracker, sleeps)
  are reified as values in explicit action lists.
-/

/-- The base-64 alphabet table of `src/bitget/authenticated_rest_client.cpp`. -/
def b64_table : List Char :=
  String.toList "ABCDEFGHIJKLMNOPQRSTUVWXYZabcdefghijklmnopqrstuvwxyz0123456789+/"

/-- Index into `b64_table` (all uses are in range; out of range gives a dummy). -/
def b64at (n : Nat) : Char := b64_table.getD n '?'

/-- One iteration of the encoding loop: `val = (b0 << 16) + (b1 << 8) + b2`,
then the four sextets `(val >> 18) & 63`, `(val >> 12) & 63`, `(val >> 6) & 63`,
`val & 63` looked up in the table. -/
def b64chunk4 (b0 b1 b2 : Nat) : List Char :=
  let val := b0 * 65536 + b1 * 256 + b2
  [b64at ((val / 262144) % 64), b64at ((val / 4096) % 64),
   b64at ((val / 64) % 64), b64at (val % 64)]

/-- The body of the `for (i += 3)` loop of `base64_encode`: every group of up
to three input bytes (missing bytes read as 0) produces four table characters.
After the loop the whole output string has been overwritten, since the loop
runs `(len + 2) / 3` times writing 4 characters each. -/
def b64body : List Nat → List Char
  | b0 :: b1 :: b2 :: rest => b64chunk4 b0 b1 b2 ++ b64body rest
  | [b0, b1] => b64chunk4 b0 b1 0
  | [b0] => b64chunk4 b0 0 0
  | [] => []

/-- `base64_encode` from `src/bitget/authenticated_rest_client.cpp`: the loop
output followed by the "padding correction", which writes `'='` at index
`size - (3 - mod)` when `mod = len % 3` is nonzero, and (redundantly, the same
index again) at `size - 2` when `mod == 1`.  Note that for `mod == 1` the final
position `size - 1` is never corrected. -/
def base64_encode (data : List Nat) : List Char :=
  let out := b64body data
  let m := data.length % 3
  let out1 := if m ≠ 0 then out.set (out.length - (3 - m)) '=' else out
  if m = 1 then out1.set (out1.length - 2) '=' else out1

/-- Standard RFC 4648 base-64 encoding (the reference the source is compared
against): data characters from the same alphabet, and `'='` padding in every
trailing position of an incomplete final group. -/
def base64Rfc4648 : List Nat → List Char
  | b0 :: b1 :: b2 :: rest => b64chunk4 b0 b1 b2 ++ base64Rfc4648 rest
  | [b0, b1] => (b64chunk4 b0 b1 0).take 3 ++ ['=']
  | [b0] => (b64chunk4 b0 0 0).take 2 ++ ['=', '=']
  | [] => []

/-- Lowercase hexadecimal digit. -/
def hexDigit (n : Nat) : Char := (String.toList "0123456789abcdef").getD n '?'

/-- `sprintf("%02x", byte)` for one byte. -/
def byteHex (b : Nat) : List Char := [hexDigit (b / 16 % 16), hexDigit (b % 16)]

/-- The lowercase hex string of a byte sequence, as built by the
`sprintf(hex + i * 2, "%02x", hash[i])` loop. -/
def lowerHex (bytes : List Nat) : String :=
  String.mk (bytes.flatMap byteHex)

/-- A composed REST request as handed to the transport. -/
structure RestRequest where
  url : String
  body : String
  headers : List (String × String)
deriving DecidableEq, Repr

/-- Look up a header value by name (first match). -/
def headerValue (r : RestRequest) (name : String) : Option String :=
  (r.headers.find? (fun kv => kv.1 = name)).map (·.2)

/-- `AuthenticatedRestClient::post` of `src/bybit/authenticated_rest_client.cpp`,
as a function of the generated millisecond timestamp string `tsStr` and an
abstract `hmacSha256 : key → message → digest bytes` primitive (OpenSSL is an
external collaborator).  Builds `toSign = ts || apiKey || "10000" || body`,
signs, hex-encodes, and attaches the Bybit headers. -/
def bybit_rest_post (apiKey apiSecret endpoint : String)
    (hmacSha256 : String → String → List Nat)
    (tsStr path body : String) : RestRequest :=
  let recv := "10000"
  let toSign := tsStr ++ apiKey ++ recv ++ body
  let hex := lowerHex (hmacSha256 apiSecret toSign)
  { url := endpoint ++ path
    body := body
    headers := [("Content-Type", "application/json"),
                ("X-BAPI-API-KEY", apiKey),
                ("X-BAPI-SIGN", hex),
                ("X-BAPI-SIGN-TYPE", "2"),
                ("X-BAPI-TIMESTAMP", tsStr),
                ("X-BAPI-RECV-WINDOW", recv)] }

/-- `BitgetAuthenticatedRestClient::post` of
`src/bitget/authenticated_rest_client.cpp`: `toSign = ts || "POST" || path || body`,
signature is `base64_encode` of the raw HMAC bytes, attached with the Bitget
headers. -/
def bitget_rest_post (apiKey apiSecret passphrase endpoint : String)
    (hmacSha256 : String → String → List Nat)
    (tsStr path body : String) : RestRequest :=
  let toSign := tsStr ++ "POST" ++ path ++ body
  let sign := String.mk (base64_encode (hmacSha256 apiSecret toSign))
  { url := endpoint ++ path
    body := body
    headers := [("Content-Type", "application/json"),
                ("ACCESS-KEY", apiKey),
                ("ACCESS-SIGN", sign),
                ("ACCESS-TIMESTAMP", tsStr),
                ("ACCESS-PASSPHRASE", passphrase)] }

/-! ## Numeric parsing (`include/flox-connectors/util/safe_parse.h`)

`safeParseDouble` wraps `std::from_chars` for `double` and returns `nullopt`
on empty input, invalid format or a partial parse (not all characters
consumed).  The accepted language is the `from_chars`/`strtod` decimal
pattern: optional `'-'`, a nonempty digit sequence optionally containing one
decimal point, and an optional exponent `e`/`E` with optional sign and at
least one digit.  Values are modelled as the exact rational of the literal. -/

/-- Split a leading run of decimal digits from a character list. -/
def takeDigits : List Char → List Char × List Char
  | c :: rest =>
      if c.isDigit then
        let (ds, r) := takeDigits rest
        (c :: ds, r)
      else ([], c :: rest)
  | [] => ([], [])

/-- Numeric value of a digit run. -/
def digitsVal (ds : List Char) : Nat :=
  ds.foldl (fun a c => a * 10 + (c.toNat - 48)) 0

/-- `10 ^ e` as a rational, for a signed exponent. -/
def pow10 (e : Int) : Rat :=
  if 0 ≤ e then ((10 ^ e.toNat : Nat) : Rat) else 1 / ((10 ^ (-e).toNat : Nat) : Rat)

/-- The rational value of sign/integer-digits/fraction-digits/exponent. -/
def ratOfParts (neg : Bool) (ip fp : List Char) (e : Int) : Rat :=
  let m : Rat := ((digitsVal ip * 10 ^ fp.length + digitsVal fp : Nat) : Rat) /
    ((10 ^ fp.length : Nat) : Rat)
  (if neg then -m else m) * pow10 e

/-- Exponent tail after `e`/`E`: optional sign, then a nonempty digit run
consuming the rest of the input. -/
def expTail (cs : List Char) : Option Int :=
  let (sgn, cs2) : Int × List Char :=
    match cs with
    | '-' :: r => (-1, r)
    | '+' :: r => (1, r)
    | r => (1, r)
  let (ds, r) := takeDigits cs2
  if ds.isEmpty || !r.isEmpty then none else some (sgn * (digitsVal ds : Int))

/-- Full-string parse of the `from_chars` decimal pattern. -/
def parseFloatChars (cs : List Char) : Option Rat :=
  let (neg, cs1) : Bool × List Char :=
    match cs with
    | '-' :: r => (true, r)
    | r => (false, r)
  let (ip, r1) := takeDigits cs1
  match r1 with
  | [] => if ip.isEmpty then none else some (ratOfParts neg ip [] 0)
  | '.' :: r2 =>
      let (fp, r3) := takeDigits r2
      if ip.isEmpty && fp.isEmpty then none
      else
        match r3 with
        | [] => some (ratOfParts neg ip fp 0)
        | 'e' :: r4 => (expTail r4).map (ratOfParts neg ip fp)
        | 'E' :: r4 => (expTail r4).map (ratOfParts neg ip fp)
        | _ => none
  | 'e' :: r4 => if ip.isEmpty then none else (expTail r4).map (ratOfParts neg ip [])
  | 'E' :: r4 => if ip.isEmpty then none else (expTail r4).map (ratOfParts neg ip [])
  | _ => none

/-- `flox::util::safeParseDouble`: `nullopt` on empty input, invalid format or
partial parse; otherwise the (exact rational) value of the literal. -/
def safeParseDouble (sv : String) : Option Rat :=
  if sv = "" then none else parseFloatChars sv.toList

/-- `flox::util::parseInt64` (base 10): optional `'-'`, a nonempty digit run
consuming the whole input, rejected outside the `int64_t` range. -/
def parseInt64 (sv : String) : Option Int :=
  if sv = "" then none
  else
    let (neg, cs) : Bool × List Char :=
      match sv.toList with
      | '-' :: r => (true, r)
      | r => (false, r)
    let (ds, rest) := takeDigits cs
    if ds.isEmpty || !rest.isEmpty then none
    else
      let v : Int := if neg then -(digitsVal ds : Int) else (digitsVal ds : Int)
      if v < -(2 ^ 63) ∨ 2 ^ 63 - 1 < v then none else some v

/-! ## Event model and venue message handlers

Handlers are embedded from the point where simdjson has extracted the frame
fields.  Book levels whose fixed-point values are never inspected by a
property are carried as their source `(price, size)` string pairs; the
Polymarket handler, which branches on the parsed values, carries rationals.
Pool acquisition (`_bookPool.acquire()`) is a boolean parameter: when it
fails the frame is dropped.  `resolveSymbolId` goes through the external
registry; events carry the venue symbol string instead. -/

inductive BookUpdateType
  | SNAPSHOT
  | DELTA
deriving DecidableEq, Repr

structure BookUpdate where
  symbol : String
  type : BookUpdateType
  bids : List (String × String)
  asks : List (String × String)
  exchangeTsNs : Int
deriving DecidableEq, Repr

structure TradeEvent where
  symbol : String
  price : String
  quantity : String
  isBuy : Bool
  exchangeTsNs : Int
deriving DecidableEq, Repr

/-- Parsed fields of a Bybit `orderbook.*` frame. -/
structure BybitBookData where
  s : String
  typeField : Option String
  b : Option (List (String × String))
  a : Option (List (String × String))
deriving DecidableEq, Repr

/-- The final non-empty guard before `_bookUpdateBus->publish(...)` shared by
the Bybit, Bitget and Hyperliquid book handlers. -/
def publishIfNonempty (ev : BookUpdate) : Option BookUpdate :=
  if ev.bids.isEmpty = false ∨ ev.asks.isEmpty = false then some ev else none

/-- The `orderbook.` branch of `BybitExchangeConnector::handleMessage`: every
level row is appended via `strtod` with no validity check (no row is ever
skipped), and the event is published only if a side is non-empty. -/
def bybitHandleOrderbook (poolAvailable : Bool) (d : BybitBookData) : Option BookUpdate :=
  if poolAvailable = false then none
  else
    let updateType :=
      match d.typeField with
      | some t => if t = "delta" then BookUpdateType.DELTA else BookUpdateType.SNAPSHOT
      | none => BookUpdateType.SNAPSHOT
    let bids := d.b.getD []
    let asks := d.a.getD []
    publishIfNonempty
      { symbol := d.s, type := updateType, bids := bids, asks := asks, exchangeTsNs := 0 }

/-- A level row passes when both price and size fully parse. -/
def validLevel (r : String × String) : Bool :=
  (safeParseDouble r.1).isSome && (safeParseDouble r.2).isSome

/-- Bitget level-array loop: keep valid rows in order, one warning per
invalid row. -/
def bitgetParseLevels (rows : List (String × String)) : List (String × String) × Nat :=
  (rows.filter validLevel, (rows.filter (fun r => !validLevel r)).length)

structure BitgetBookEntry where
  bids : Option (List (String × String))
  asks : Option (List (String × String))
  ts : Option String
deriving DecidableEq, Repr

structure BitgetBookFrame where
  action : Option String
  instId : String
  data : List BitgetBookEntry
deriving DecidableEq, Repr

/-- The `books*` branch of `BitgetExchangeConnector::handleMessage`:
accumulates the surviving bid/ask rows of every data entry, tracks the last
entry timestamp that parses (milliseconds, stored as `ts * 1'000'000` ns),
counts warnings, and publishes only if a side is non-empty.  The result is
the published event (or `none`) and the warning count. -/
def bitgetHandleBooks (poolAvailable : Bool) (f : BitgetBookFrame) :
    Option BookUpdate × Nat :=
  if poolAvailable = false then (none, 0)
  else
    let updateType :=
      if f.action = some "update" then BookUpdateType.DELTA else BookUpdateType.SNAPSHOT
    let step := fun (acc : List (String × String) × List (String × String) × Int × Nat)
        (d : BitgetBookEntry) =>
      let (bids, asks, ts, warns) := acc
      let (nb, wb) := bitgetParseLevels (d.bids.getD [])
      let (na, wa) := bitgetParseLevels (d.asks.getD [])
      let ts2 :=
        match d.ts with
        | some s =>
            match parseInt64 s with
            | some t => t * 1000000
            | none => ts
        | none => ts
      (bids ++ nb, asks ++ na, ts2, warns + wb + wa)
    let (bids, asks, ts, warns) := f.data.foldl step ([], [], 0, 0)
    (publishIfNonempty
       { symbol := f.instId, type := updateType, bids := bids, asks := asks,
         exchangeTsNs := ts }, warns)

/-- One entry of a Bitget `trade` frame as extracted from the JSON. -/
structure BitgetTradeEntry where
  price : String
  size : String
  side : String
  ts : Option String
deriving DecidableEq, Repr

/-- The per-entry body of the Bitget `trade` loop: `none` when price or size
fails `safeParseDouble` (the row is skipped with a warning), otherwise the
published `TradeEvent`. -/
def bitgetTradeEventOf (instId : String) (e : BitgetTradeEntry) : Option TradeEvent :=
  match safeParseDouble e.price, safeParseDouble e.size with
  | some _, some _ =>
      some { symbol := instId
             price := e.price
             quantity := e.size
             isBuy := e.side = "buy" ∨ e.side = "Buy"
             exchangeTsNs :=
               match e.ts with
               | some s =>
                   match parseInt64 s with
                   | some t => t * 1000000
                   | none => 0
               | none => 0 }
  | _, _ => none

/-- The `trade` branch of `BitgetExchangeConnector::handleMessage`: one event
per valid entry, one warning per invalid entry, the frame itself survives. -/
def bitgetHandleTrade (instId : String) (entries : List BitgetTradeEntry) :
    List TradeEvent × Nat :=
  (entries.filterMap (bitgetTradeEventOf instId),
   (entries.filter
     (fun e => !((safeParseDouble e.price).isSome && (safeParseDouble e.size).isSome))).length)

/-- Parsed fields of a Hyperliquid `l2Book` frame; a level with a missing
`px`/`sz` field is `none`. -/
structure HlBookFrame where
  coin : String
  time : Option Int
  levels : List (List (Option (String × String)))
deriving DecidableEq, Repr

/-- Hyperliquid level loop: levels with missing fields are skipped silently,
levels failing `safeParseDouble` are skipped with a warning. -/
def hlParseLevels (rows : List (Option (String × String))) :
    List (String × String) × Nat :=
  (rows.filterMap (fun r =>
     match r with
     | none => none
     | some pq => if validLevel pq then some pq else none),
   (rows.filter (fun r =>
     match r with
     | none => false
     | some pq => !validLevel pq)).length)

/-- The `l2Book` branch of `HyperliquidExchangeConnector::handleMessage`:
index 0 of `levels` feeds the bids, every later index feeds the asks;
publishes only if a side is non-empty. -/
def hlHandleL2Book (poolAvailable : Bool) (f : HlBookFrame) : Option BookUpdate × Nat :=
  if poolAvailable = false then (none, 0)
  else
    let ts := match f.time with | some t => t * 1000000 | none => 0
    let bidsRes := hlParseLevels (f.levels.headD [])
    let askParts := (f.levels.drop 1).map hlParseLevels
    let asks := (askParts.map (·.1)).flatten
    let warns := bidsRes.2 + (askParts.map (·.2)).sum
    (publishIfNonempty
       { symbol := f.coin, type := BookUpdateType.SNAPSHOT, bids := bidsRes.1,
         asks := asks, exchangeTsNs := ts }, warns)

/-- One Polymarket book level: `price` / `size` fields may be absent. -/
structure PmLevel where
  price : Option String
  size : Option String
deriving DecidableEq, Repr

/-- Parsed fields of a Polymarket book snapshot. -/
structure PmBookSnapshot where
  assetId : Option String
  bids : List PmLevel
  asks : List PmLevel
deriving DecidableEq, Repr

/-- The Polymarket event it publishes (values are inspected, so levels carry
rationals). -/
structure PmBookUpdate where
  symbol : String
  bids : List (Rat × Rat)
  asks : List (Rat × Rat)
deriving DecidableEq

/-- `double price = 0` then overwritten when the field is present and parses. -/
def pmLevelValue (f : Option String) : Rat :=
  match f with
  | some s =>
      match safeParseDouble s with
      | some v => v
      | none => 0
  | none => 0

/-- Polymarket level loop: a row is kept iff `price > 0 && size > 0`.  No
warning is logged for an unparsable value - it stays at its default 0 and
the row is silently removed by the filter. -/
def pmParseLevels (rows : List PmLevel) : List (Rat × Rat) :=
  rows.filterMap (fun l =>
    let price := pmLevelValue l.price
    let size := pmLevelValue l.size
    if 0 < price ∧ 0 < size then some (price, size) else none)

/-- `PolymarketExchangeConnector::processBookSnapshot`: drops the frame when
`asset_id` is missing or the pool is exhausted, then publishes the event
unconditionally - there is no non-empty guard before
`_bookUpdateBus->publish`. -/
def polymarket_processBookSnapshot (poolAvailable : Bool) (s : PmBookSnapshot) :
    Option PmBookUpdate :=
  match s.assetId with
  | none => none
  | some tokenId =>
      if poolAvailable = false then none
      else some { symbol := tokenId, bids := pmParseLevels s.bids, asks := pmParseLevels s.asks }

/-! ## Order executor response handlers

An executor's `post` receives an `onSuccess` continuation (invoked by the
transport only for a 2xx HTTP response) and an `onError` continuation
(curl-level failure or non-2xx).  The continuations are embedded as functions
from the parsed response fields to the list of `OrderTracker` methods they
invoke; all `onError` continuations only clear the pending-timeout entry and
log, so they are the constant empty list. -/

inductive TrackerCall
  | onSubmitted (orderId : Nat) (exchangeId : String) (clientId : String)
  | onCanceled (orderId : Nat)
  | onReplaced (orderId : Nat) (exchangeId : String) (clientId : String)
deriving DecidableEq, Repr

/-- Parsed fields of a Bybit REST reply. -/
structure BybitResp where
  retCode : Int
  retMsg : String
  resultOrderId : String
deriving DecidableEq, Repr

/-- `BybitOrderExecutorT::submitOrder` success continuation: on
`retCode != 0` log and return without touching the tracker, else
`onSubmitted(order, orderId)` (no client id). -/
def bybitSubmitOnSuccess (orderId : Nat) (resp : BybitResp) : List TrackerCall :=
  if resp.retCode ≠ 0 then [] else [.onSubmitted orderId resp.resultOrderId ""]

/-- `BybitOrderExecutorT::cancelOrder` success continuation. -/
def bybitCancelOnSuccess (orderId : Nat) (resp : BybitResp) : List TrackerCall :=
  if resp.retCode ≠ 0 then [] else [.onCanceled orderId]

/-- `BybitOrderExecutorT::replaceOrder` success continuation
(`onReplaced(oldOrderId, newOrder, "")`). -/
def bybitReplaceOnSuccess (orderId : Nat) (resp : BybitResp) : List TrackerCall :=
  if resp.retCode ≠ 0 then [] else [.onReplaced orderId "" ""]

/-- Parsed fields of a Bitget REST reply. -/
structure BitgetResp where
  code : String
  msg : String
  dataOrderId : Option String
deriving DecidableEq, Repr

/-- `BitgetOrderExecutorT::submitOrder` success continuation: venue success is
`code == "00000"`. -/
def bitgetSubmitOnSuccess (orderId : Nat) (resp : BitgetResp) : List TrackerCall :=
  if resp.code ≠ "00000" then []
  else [.onSubmitted orderId (resp.dataOrderId.getD "") ""]

/-- `BitgetOrderExecutorT::cancelOrder` success continuation. -/
def bitgetCancelOnSuccess (orderId : Nat) (resp : BitgetResp) : List TrackerCall :=
  if resp.code = "00000" then [.onCanceled orderId] else []

/-- `BitgetOrderExecutorT::replaceOrder` success continuation
(exchange id taken only when the field is string-typed). -/
def bitgetReplaceOnSuccess (orderId : Nat) (resp : BitgetResp) : List TrackerCall :=
  if resp.code ≠ "00000" then []
  else [.onReplaced orderId (resp.dataOrderId.getD "") ""]

/-- `response.data.statuses[0]` of a Hyperliquid order reply. -/
structure HlStatus where
  restingOid : Option Nat
  filledOid : Option Nat
deriving DecidableEq, Repr

/-- Parsed fields of a Hyperliquid submit reply: `statuses0 = none` when
`response.data.statuses` is missing or empty. -/
structure HlSubmitResp where
  statuses0 : Option HlStatus
deriving DecidableEq, Repr

/-- `HyperliquidOrderExecutorT::submitOrder` success continuation: `exId`
starts empty, is overwritten by `resting.oid` and then by `filled.oid` when
present, and `onSubmitted(order, exId, cloid)` is invoked unconditionally -
there is no venue-level failure branch. -/
def hlSubmitOnSuccess (orderId : Nat) (cloid : String) (resp : HlSubmitResp) :
    List TrackerCall :=
  let exId :=
    match resp.statuses0 with
    | none => ""
    | some s =>
        let e1 := match s.restingOid with | some oid => toString oid | none => ""
        match s.filledOid with | some oid => toString oid | none => e1
  [.onSubmitted orderId exId cloid]

/-- Parsed fields of a Hyperliquid cancel/modify reply. -/
structure HlStatusResp where
  status : Option String
deriving DecidableEq, Repr

/-- `HyperliquidOrderExecutorT::cancelOrder` success continuation: tracker
updated only when `status == "ok"`. -/
def hlCancelOnSuccess (orderId : Nat) (resp : HlStatusResp) : List TrackerCall :=
  if resp.status = some "ok" then [.onCanceled orderId] else []

/-- `HyperliquidOrderExecutorT::replaceOrder` success continuation. -/
def hlReplaceOnSuccess (orderId : Nat) (exId cloid : String) (resp : HlStatusResp) :
    List TrackerCall :=
  if resp.status = some "ok" then [.onReplaced orderId exId cloid] else []

/-- Every executor `onError` continuation (transport error / non-2xx), for all
three operations on Bybit, Bitget and Hyperliquid: clear the pending timeout,
log, and invoke no tracker method. -/
def executorOnErrorCalls (_err : String) : List TrackerCall := []

/-! ## Timeout order tracker (`src/execution/timeout_order_tracker.cpp`)

The pending map `OrderId → PendingOp` is an association list with unique
keys; `steady_clock` instants are millisecond integers.  Callbacks are
reified: the config records whether `onTimeout` / `onReject` are set, and
`checkTimeouts` returns the list of actions fired after releasing the
lock. -/

inductive OpType
  | SUBMIT
  | CANCEL
  | REPLACE
deriving DecidableEq, Repr

inductive TimeoutPolicy
  | LOG_ONLY
  | REJECT
  | CALLBACK
  | RECONCILE
deriving DecidableEq, Repr

structure OrderTimeoutConfig where
  submitTimeoutMs : Int := 5000
  cancelTimeoutMs : Int := 3000
  replaceTimeoutMs : Int := 5000
  checkIntervalMs : Int := 100
  policy : TimeoutPolicy := .REJECT
  hasOnTimeout : Bool := false
  hasOnReject : Bool := false
deriving DecidableEq, Repr

/-- `OrderTimeoutConfig::isValid`. -/
def OrderTimeoutConfig.isValid (c : OrderTimeoutConfig) : Bool :=
  0 < c.submitTimeoutMs && 0 < c.cancelTimeoutMs && 0 < c.replaceTimeoutMs &&
    0 < c.checkIntervalMs

structure PendingOp where
  orderId : Nat
  opType : OpType
  startTime : Int
deriving DecidableEq, Repr

structure TimeoutOrderTracker where
  config : OrderTimeoutConfig
  pending : List (Nat × PendingOp)
  running : Bool
deriving DecidableEq, Repr

/-- The `TimeoutOrderTracker` constructor: stores the config unvalidated,
with an empty pending map and the checker not running.  (It performs no
validity check; `OrderTimeoutConfig::isValid` is consulted only by
`ActiveTimeoutPolicy::init`.) -/
def mkTimeoutOrderTracker (config : OrderTimeoutConfig) : TimeoutOrderTracker :=
  { config := config, pending := [], running := false }

/-- `_pending[orderId] = op`: replace the entry in place when the key exists,
else append. -/
def updatePending (m : List (Nat × PendingOp)) (id : Nat) (op : PendingOp) :
    List (Nat × PendingOp) :=
  match m with
  | [] => [(id, op)]
  | kv :: rest => if kv.1 = id then (id, op) :: rest else kv :: updatePending rest id op

def TimeoutOrderTracker.trackSubmit (t : TimeoutOrderTracker) (id : Nat) (now : Int) :
    TimeoutOrderTracker :=
  { t with pending := updatePending t.pending id ⟨id, OpType.SUBMIT, now⟩ }

def TimeoutOrderTracker.trackCancel (t : TimeoutOrderTracker) (id : Nat) (now : Int) :
    TimeoutOrderTracker :=
  { t with pending := updatePending t.pending id ⟨id, OpType.CANCEL, now⟩ }

def TimeoutOrderTracker.trackReplace (t : TimeoutOrderTracker) (id : Nat) (now : Int) :
    TimeoutOrderTracker :=
  { t with pending := updatePending t.pending id ⟨id, OpType.REPLACE, now⟩ }

/-- `_pending.erase(orderId)`. -/
def TimeoutOrderTracker.clearPending (t : TimeoutOrderTracker) (id : Nat) :
    TimeoutOrderTracker :=
  { t with pending := t.pending.filter (fun kv => kv.1 ≠ id) }

def TimeoutOrderTracker.hasPending (t : TimeoutOrderTracker) (id : Nat) : Bool :=
  t.pending.any (fun kv => kv.1 = id)

def TimeoutOrderTracker.pendingCount (t : TimeoutOrderTracker) : Nat :=
  t.pending.length

/-- `TimeoutOrderTracker::getTimeoutMs`. -/
def getTimeoutMs (c : OrderTimeoutConfig) : OpType → Int
  | .SUBMIT => c.submitTimeoutMs
  | .CANCEL => c.cancelTimeoutMs
  | .REPLACE => c.replaceTimeoutMs

/-- `TimeoutOrderTracker::opTypeToString`. -/
def opTypeToString : OpType → String
  | .SUBMIT => "submit"
  | .CANCEL => "cancel"
  | .REPLACE => "replace"

inductive TrackerAction
  | logWarn (msg : String)
  | logInfo (msg : String)
  | rejectCall (orderId : Nat) (reason : String)
  | timeoutCall (orderId : Nat) (op : String)
deriving DecidableEq, Repr

/-- The policy-switch body run for one timed-out operation (outside the
lock). -/
def timeoutActions (c : OrderTimeoutConfig) (op : PendingOp) : List TrackerAction :=
  let opStr := opTypeToString op.opType
  match c.policy with
  | .LOG_ONLY => [.logWarn "Operation timed out"]
  | .REJECT =>
      .logWarn "Rejecting timed out order" ::
        (if c.hasOnReject then [.rejectCall op.orderId (opStr ++ " timeout")] else [])
  | .CALLBACK =>
      if c.hasOnTimeout then [.timeoutCall op.orderId opStr]
      else [.logWarn "Timeout but no callback"]
  | .RECONCILE =>
      .logInfo "Reconcile needed" ::
        (if c.hasOnTimeout then [.timeoutCall op.orderId opStr] else [])

/-- `elapsed >= getTimeoutMs(op.opType)` for one entry. -/
def timedOutPred (c : OrderTimeoutConfig) (now : Int) (kv : Nat × PendingOp) : Bool :=
  getTimeoutMs c kv.2.opType ≤ now - kv.2.startTime

/-- `TimeoutOrderTracker::checkTimeouts`: extract all timed-out entries under
the lock, then fire the policy action for each of them in order. -/
def TimeoutOrderTracker.checkTimeouts (t : TimeoutOrderTracker) (now : Int) :
    TimeoutOrderTracker × List TrackerAction :=
  let timedOut := (t.pending.filter (timedOutPred t.config now)).map (·.2)
  let remaining := t.pending.filter (fun kv => !timedOutPred t.config now kv)
  ({ t with pending := remaining }, (timedOut.map (timeoutActions t.config)).flatten)

/-- `TimeoutOrderTracker::start`: `_running.exchange(true)`; the boolean
reports whether a checker thread was spawned. -/
def TimeoutOrderTracker.start (t : TimeoutOrderTracker) : TimeoutOrderTracker × Bool :=
  if t.running then (t, false) else ({ t with running := true }, true)

/-- `TimeoutOrderTracker::stop`: `_running.exchange(false)`; the boolean
reports whether the checker thread was joined. -/
def TimeoutOrderTracker.stop (t : TimeoutOrderTracker) : TimeoutOrderTracker × Bool :=
  if t.running = false then (t, false) else ({ t with running := false }, true)

/-- `ActiveTimeoutPolicy::init`: construct the tracker only when the config
is valid; otherwise `_tracker` stays null and every policy method is a
no-op. -/
def activeTimeoutPolicy_init (c : OrderTimeoutConfig) : Option TimeoutOrderTracker :=
  if c.isValid then some (mkTimeoutOrderTracker c) else none

/-! ## Rate-limit policy (`include/flox-connectors/execution/executor_policies.h`)

The token bucket itself (`flox::RateLimiter`) is an external collaborator;
`tryAcquire` observes it through the result of `_limiter->tryAcquire()` and
`_limiter->timeUntilAvailable()`, modelled by `LimiterProbe`.  `limiter =
none` models an unengaged `_limiter` (invalid config at `init`). -/

inductive RateLimitPolicy
  | REJECT
  | WAIT
  | CALLBACK
deriving DecidableEq, Repr

structure RateLimitConfig where
  capacity : Nat
  refillRate : Nat
  policy : RateLimitPolicy
  hasOnRateLimited : Bool := false
deriving DecidableEq, Repr

/-- `RateLimitConfig::isValid`. -/
def RateLimitConfig.isValid (c : RateLimitConfig) : Bool :=
  0 < c.capacity && 0 < c.refillRate

/-- What the active policy observes of the external token bucket at one
`tryAcquire` call. -/
structure LimiterProbe where
  tokenAvailable : Bool
  waitTime : Nat
deriving DecidableEq, Repr

inductive RateLimitEffect
  | warnLog
  | sleepFor (ns : Nat)
  | acquireAttempt
  | rateLimitedCallback (orderId : Nat) (waitNs : Nat)
deriving DecidableEq, Repr

/-- `ActiveRateLimitPolicy::tryAcquire`: immediate token → true; otherwise
dispatch on the policy.  `WAIT` sleeps for `timeUntilAvailable()`, issues one
further acquire whose result is discarded, and returns true.  `CALLBACK`
invokes `onRateLimited(orderId, waitTime)` when set and returns false. -/
def activeTryAcquire (limiter : Option LimiterProbe) (c : RateLimitConfig)
    (orderId : Nat) : Bool × List RateLimitEffect :=
  match limiter with
  | none => (true, [])
  | some l =>
      if l.tokenAvailable then (true, [])
      else
        match c.policy with
        | .REJECT => (false, [.warnLog])
        | .WAIT => (true, [.sleepFor l.waitTime, .acquireAttempt])
        | .CALLBACK =>
            (false,
             if c.hasOnRateLimited then [.rateLimitedCallback orderId l.waitTime] else [])

/-- `NoRateLimitPolicy::tryAcquire`: the disabled variant, constant true. -/
def noRateLimit_tryAcquire (_orderId : Nat) : Bool := true

/-! ## Curl session pool (`src/net/curl_session_pool.cpp`) -/

structure CurlSessionPoolConfig where
  initialSize : Nat := 4
  maxSize : Nat := 32
  acquireTimeoutMs : Int := 5000
deriving DecidableEq, Repr

/-- `CurlSessionPoolConfig::isValid`. -/
def CurlSessionPoolConfig.isValid (c : CurlSessionPoolConfig) : Bool :=
  0 < c.initialSize && c.initialSize ≤ c.maxSize && 0 < c.acquireTimeoutMs

structure CurlSessionPool where
  maxSize : Nat
  acquireTimeoutMs : Int
  pool : Nat
  totalCreated : Nat
deriving DecidableEq, Repr

/-- The `CurlSessionPool(CurlSessionPoolConfig)` constructor: throws
`std::invalid_argument` on an invalid config before creating any handle,
else pre-warms `initialSize` handles (`curl_easy_init` assumed to
succeed). -/
def mkCurlSessionPool (config : CurlSessionPoolConfig) : Except String CurlSessionPool :=
  if config.isValid = false then Except.error "Invalid CurlSessionPoolConfig"
  else
    Except.ok { maxSize := config.maxSize, acquireTimeoutMs := config.acquireTimeoutMs,
                pool := config.initialSize, totalCreated := config.initialSize }

/-! ## Bybit connector lifecycle (`src/bybit/bybit_exchange_connector.cpp`) -/

inductive InstrumentType
  | Spot
  | Future
  | Inverse
  | Opt
deriving DecidableEq, Repr

inductive BookDepth
  | Invalid
  | Top1
  | Top25
  | Top50
  | Top100
  | Top200
  | Top500
deriving DecidableEq, Repr

structure BybitSymbolEntry where
  name : String
  type : InstrumentType
  depth : BookDepth := BookDepth.Invalid
deriving DecidableEq, Repr

structure BybitConfig where
  publicEndpoint : String
  privateEndpoint : String
  symbols : List BybitSymbolEntry
  reconnectDelayMs : Int := 2000
  apiKey : String
  apiSecret : String
  enablePrivate : Bool := false
deriving DecidableEq, Repr

/-- The per-symbol checks of `BybitConfig::isValid` (the `switch` over the
instrument type; `Inverse` falls into the `default:` branch and fails). -/
def bybitSymbolEntryValid (s : BybitSymbolEntry) : Bool :=
  s.name ≠ "" && s.depth ≠ BookDepth.Invalid &&
    (match s.type with
     | .Spot => s.depth = .Top1 ∨ s.depth = .Top50 ∨ s.depth = .Top200
     | .Future => s.depth = .Top1 ∨ s.depth = .Top50 ∨ s.depth = .Top200 ∨ s.depth = .Top500
     | .Opt => s.depth = .Top25 ∨ s.depth = .Top100
     | .Inverse => false)

/-- `BybitConfig::isValid`. -/
def BybitConfig.isValid (c : BybitConfig) : Bool :=
  c.publicEndpoint ≠ "" && c.symbols.all bybitSymbolEntryValid &&
    (!c.enablePrivate || (c.privateEndpoint ≠ "" && c.apiKey ≠ "" && c.apiSecret ≠ ""))

/-- Connector state: `wsClient` / `wsClientPrivate` model the two
`unique_ptr`s being non-null; the public client is created in the
constructor. -/
structure BybitConnector where
  config : BybitConfig
  running : Bool
  wsClient : Bool
  wsClientPrivate : Bool
deriving DecidableEq, Repr

def mkBybitConnector (c : BybitConfig) : BybitConnector :=
  { config := c, running := false, wsClient := true, wsClientPrivate := false }

inductive ConnectorEffect
  | logError (msg : String)
  | startPublicWs
  | startPrivateWs
  | stopPublicWs
  | stopPrivateWs
deriving DecidableEq, Repr

/-- `BybitExchangeConnector::start`: refuse on invalid config (log, stay
stopped); `_running.exchange(true)` makes a second call a no-op; otherwise
install handlers and start the public (and, when enabled, private)
websocket. -/
def BybitConnector.start (s : BybitConnector) : BybitConnector × List ConnectorEffect :=
  if s.config.isValid = false then (s, [.logError "Invalid connector config"])
  else if s.running then (s, [])
  else
    ({ s with running := true, wsClientPrivate := s.config.enablePrivate },
     if s.config.enablePrivate then [.startPublicWs, .startPrivateWs] else [.startPublicWs])

/-- `BybitExchangeConnector::stop`: `_running.exchange(false)` makes a second
call a no-op; otherwise stop and reset both websocket clients. -/
def BybitConnector.stop (s : BybitConnector) : BybitConnector × List ConnectorEffect :=
  if s.running = false then (s, [])
  else
    ({ s with running := false, wsClient := false, wsClientPrivate := false },
     (if s.wsClient then [ConnectorEffect.stopPublicWs] else []) ++
       (if s.wsClientPrivate then [ConnectorEffect.stopPrivateWs] else []))

/-- Keys of the pending map. -/
def pendingKeys (t : TimeoutOrderTracker) : List Nat := t.pending.map Prod.fst

/-- Tracker states reachable from construction through the public
operations. -/
inductive TrackerReachable (cfg : OrderTimeoutConfig) : TimeoutOrderTracker → Prop
  | init : TrackerReachable cfg (mkTimeoutOrderTracker cfg)
  | trackSubmit (t : TimeoutOrderTracker) (id : Nat) (now : Int) :
      TrackerReachable cfg t → TrackerReachable cfg (t.trackSubmit id now)
  | trackCancel (t : TimeoutOrderTracker) (id : Nat) (now : Int) :
      TrackerReachable cfg t → TrackerReachable cfg (t.trackCancel id now)
  | trackReplace (t : TimeoutOrderTracker) (id : Nat) (now : Int) :
      TrackerReachable cfg t → TrackerReachable cfg (t.trackReplace id now)
  | clearPending (t : TimeoutOrderTracker) (id : Nat) :
      TrackerReachable cfg t → TrackerReachable cfg (t.clearPending id)
  | checkTimeouts (t : TimeoutOrderTracker) (now : Int) :
      TrackerReachable cfg t → TrackerReachable cfg (t.checkTimeouts now).1
  | start (t : TimeoutOrderTracker) :
      TrackerReachable cfg t → TrackerReachable cfg t.start.1
  | stop (t : TimeoutOrderTracker) :
      TrackerReachable cfg t → TrackerReachable cfg t.stop.1

/-- Recognize an `onReject` invocation for a given order id. -/
def isRejectFor (id : Nat) : TrackerAction → Bool
  | .rejectCall id2 _ => id2 = id
  | _ => false

/-- Recognize any `OrderTracker` mutation among a handler's calls. -/
def invokesTracker (calls : List TrackerCall) : Bool := !calls.isEmpty

/-! # Theorems -/

/-! ## Base-64: the source encoder versus RFC 4648 -/

theorem set_append_right (xs ys : List Char) (i : Nat) (c : Char) :
    (xs ++ ys).set (xs.length + i) c = xs ++ ys.set i c := by
  induction xs with
  | nil => simp
  | cons x xs ih => simp [List.set, Nat.succ_add, ih]

theorem b64chunk4_length (b0 b1 b2 : Nat) : (b64chunk4 b0 b1 b2).length = 4 := by
  simp [b64chunk4]

theorem b64body_length_ge (data : List Nat) (h : data ≠ []) :
    4 ≤ (b64body data).length := by
  match data with
  | [] => exact absurd rfl h
  | [b0] => simp [b64body, b64chunk4]
  | [b0, b1] => simp [b64body, b64chunk4]
  | b0 :: b1 :: b2 :: rest => simp [b64body, b64chunk4]

theorem append_set_pad (xs tail : List Char) (k : Nat) (hx : xs.length = 4)
    (hkL : k ≤ tail.length) :
    (xs ++ tail).set ((xs ++ tail).length - k) '=' =
      xs ++ tail.set (tail.length - k) '=' := by
  have h : (xs ++ tail).length - k = xs.length + (tail.length - k) := by
    simp [hx]
    omega
  rw [h, set_append_right]

theorem base64_encode_cons3 (b0 b1 b2 : Nat) (rest : List Nat) (hne : rest ≠ []) :
    base64_encode (b0 :: b1 :: b2 :: rest) =
      b64chunk4 b0 b1 b2 ++ base64_encode rest := by
  have hm : (b0 :: b1 :: b2 :: rest).length % 3 = rest.length % 3 := by
    simp [List.length_cons]
    omega
  have hL : 4 ≤ (b64body rest).length := b64body_length_ge rest hne
  have hbody : b64body (b0 :: b1 :: b2 :: rest) = b64chunk4 b0 b1 b2 ++ b64body rest := rfl
  have hmlt : rest.length % 3 < 3 := Nat.mod_lt _ (by norm_num)
  have hck : (b64chunk4 b0 b1 b2).length = 4 := b64chunk4_length b0 b1 b2
  unfold base64_encode
  rw [hbody, hm]
  dsimp only
  split_ifs with hA hB hB
  · -- m = 1 and m ≠ 0: both padding writes
    rw [append_set_pad _ _ _ hck (by omega)]
    have hl2 : ((b64body rest).set ((b64body rest).length - (3 - rest.length % 3)) '=').length =
        (b64body rest).length := by simp
    rw [append_set_pad _ _ 2 hck (by rw [hl2]; omega), hl2]
  · -- m = 1 together with m = 0: impossible
    omega
  · -- m ≠ 1 and m ≠ 0: only the first padding write
    rw [append_set_pad _ _ _ hck (by omega)]
  · rfl

theorem base64_agree : (data : List Nat) → data.length % 3 ≠ 1 →
    base64_encode data = base64Rfc4648 data
  | [], _ => rfl
  | [b0], h => by simp [List.length] at h
  | [b0, b1], _ => by
      simp [base64_encode, b64body, base64Rfc4648, b64chunk4, List.set]
  | b0 :: b1 :: b2 :: rest, h => by
      cases rest with
      | nil => simp [base64_encode, b64body, base64Rfc4648]
      | cons r0 rest2 =>
          have hm2 : (r0 :: rest2).length % 3 ≠ 1 := by
            simp [List.length_cons] at h ⊢
            omega
          rw [base64_encode_cons3 b0 b1 b2 (r0 :: rest2) (by simp),
            base64_agree (r0 :: rest2) hm2]
          rfl

/-- C10: for a one-byte input (length congruent to 1 modulo 3) the source
`base64_encode` emits an alphabet character in the final position instead of
the second `'='` pad: it returns "AQ=A" where RFC 4648 requires "AQ==", so a
standard decoder does not recover the input.  (For lengths not congruent to
1 modulo 3 the encoder agrees with RFC 4648, see `base64_agree`.) -/
theorem C10_base64_mod1_bug :
    base64_encode [1] = String.toList "AQ=A" ∧
    base64Rfc4648 [1] = String.toList "AQ==" ∧
    base64_encode [1] ≠ base64Rfc4648 [1] := by
  refine ⟨by decide, by decide, by decide⟩

/-- C2: for every `post(path, body)` the Bybit client signs exactly
`ts || api_key || "10000" || body` and attaches the lowercase hex of the
HMAC-SHA256 digest as `X-BAPI-SIGN`, and the Bitget client signs exactly
`ts || "POST" || path || body` and attaches the RFC 4648 base-64 of the raw
digest bytes as `ACCESS-SIGN`; in both cases the same timestamp string is
sent in the venue's timestamp header.  (The digest length 32 is that of
HMAC-SHA256.) -/
theorem C2_hmac_canonical_preimages
    (apiKey apiSecret passphrase endpoint tsStr path body : String)
    (hmacSha256 : String → String → List Nat)
    (hlen : (hmacSha256 apiSecret (tsStr ++ "POST" ++ path ++ body)).length = 32) :
    (headerValue (bybit_rest_post apiKey apiSecret endpoint hmacSha256 tsStr path body)
        "X-BAPI-SIGN" =
      some (lowerHex (hmacSha256 apiSecret (tsStr ++ apiKey ++ "10000" ++ body))) ∧
     headerValue (bybit_rest_post apiKey apiSecret endpoint hmacSha256 tsStr path body)
        "X-BAPI-TIMESTAMP" = some tsStr) ∧
    (headerValue (bitget_rest_post apiKey apiSecret passphrase endpoint hmacSha256 tsStr path body)
        "ACCESS-SIGN" =
      some (String.mk (base64Rfc4648 (hmacSha256 apiSecret (tsStr ++ "POST" ++ path ++ body)))) ∧
     headerValue (bitget_rest_post apiKey apiSecret passphrase endpoint hmacSha256 tsStr path body)
        "ACCESS-TIMESTAMP" = some tsStr) := by
  have hagree : base64_encode (hmacSha256 apiSecret (tsStr ++ "POST" ++ path ++ body)) =
      base64Rfc4648 (hmacSha256 apiSecret (tsStr ++ "POST" ++ path ++ body)) :=
    base64_agree _ (by rw [hlen]; decide)
  refine ⟨⟨?_, ?_⟩, ⟨?_, ?_⟩⟩ <;>
    simp [headerValue, bybit_rest_post, bitget_rest_post, List.find?, hagree]

theorem C2_hmac_canonical_preimages_witness :
    (headerValue (bybit_rest_post "K" "S" "E" (fun _ _ => List.replicate 32 7)
        "1700000000000" "/v5/order/create" "B") "X-BAPI-SIGN" =
      some (lowerHex ((fun _ _ => List.replicate 32 7) "S"
        ("1700000000000" ++ "K" ++ "10000" ++ "B"))) ∧
     headerValue (bybit_rest_post "K" "S" "E" (fun _ _ => List.replicate 32 7)
        "1700000000000" "/v5/order/create" "B") "X-BAPI-TIMESTAMP" = some "1700000000000") ∧
    (headerValue (bitget_rest_post "K" "S" "P" "E" (fun _ _ => List.replicate 32 7)
        "1700000000000" "/v5/order/create" "B") "ACCESS-SIGN" =
      some (String.mk (base64Rfc4648 ((fun _ _ => List.replicate 32 7) "S"
        ("1700000000000" ++ "POST" ++ "/v5/order/create" ++ "B")))) ∧
     headerValue (bitget_rest_post "K" "S" "P" "E" (fun _ _ => List.replicate 32 7)
        "1700000000000" "/v5/order/create" "B") "ACCESS-TIMESTAMP" = some "1700000000000") :=
  C2_hmac_canonical_preimages "K" "S" "P" "E" "1700000000000" "/v5/order/create" "B"
    (fun _ _ => List.replicate 32 7) (by simp)

/-- C1 (code bug): the Hyperliquid `submitOrder` success continuation invokes
`onSubmitted` even on a venue-level failure - a 2xx reply whose
`response.data.statuses[0]` yields neither `resting.oid` nor `filled.oid`
still produces `onSubmitted(order, "", cloid)`, where the claim (and the
sibling handlers: Bybit `retCode != 0`, Bitget `code != "00000"`, and every
transport-error continuation, all shown below returning no tracker call)
requires zero tracker methods. -/
theorem C1_hl_submit_invokes_tracker_on_venue_failure :
    hlSubmitOnSuccess 42 "0xabc" { statuses0 := none } =
      [TrackerCall.onSubmitted 42 "" "0xabc"] ∧
    invokesTracker (hlSubmitOnSuccess 42 "0xabc" { statuses0 := none }) = true ∧
    hlSubmitOnSuccess 42 "0xabc" { statuses0 := some { restingOid := none, filledOid := none } } =
      [TrackerCall.onSubmitted 42 "" "0xabc"] ∧
    bybitSubmitOnSuccess 42 { retCode := 10001, retMsg := "err", resultOrderId := "" } = [] ∧
    bitgetSubmitOnSuccess 42 { code := "40000", msg := "err", dataOrderId := none } = [] ∧
    executorOnErrorCalls "connect timeout" = [] := by
  refine ⟨rfl, rfl, rfl, by decide, by decide, rfl⟩

/-- Helper: `publishIfNonempty` only emits an event with a non-empty side. -/
theorem publishIfNonempty_nonempty (ev0 ev : BookUpdate)
    (h : publishIfNonempty ev0 = some ev) : ev.bids ≠ [] ∨ ev.asks ≠ [] := by
  unfold publishIfNonempty at h
  split_ifs at h with hc
  cases Option.some_inj.mp h
  rcases hc with hc | hc
  · exact Or.inl (fun hnil => by rw [hnil] at hc; simp at hc)
  · exact Or.inr (fun hnil => by rw [hnil] at hc; simp at hc)

/-- Helper: a Bybit book event is published only with a non-empty side. -/
theorem bybit_orderbook_nonempty (pool : Bool) (d : BybitBookData) (ev : BookUpdate)
    (h : bybitHandleOrderbook pool d = some ev) : ev.bids ≠ [] ∨ ev.asks ≠ [] := by
  unfold bybitHandleOrderbook at h
  split_ifs at h <;>
    first
      | exact publishIfNonempty_nonempty _ _ h
      | simp at h

/-- Helper: a Bitget book event is published only with a non-empty side. -/
theorem bitget_books_nonempty (pool : Bool) (f : BitgetBookFrame) (ev : BookUpdate)
    (h : (bitgetHandleBooks pool f).1 = some ev) : ev.bids ≠ [] ∨ ev.asks ≠ [] := by
  unfold bitgetHandleBooks at h
  split_ifs at h <;>
    first
      | exact publishIfNonempty_nonempty _ _ h
      | simp at h

/-- Helper: a Hyperliquid book event is published only with a non-empty side. -/
theorem hl_l2book_nonempty (pool : Bool) (f : HlBookFrame) (ev : BookUpdate)
    (h : (hlHandleL2Book pool f).1 = some ev) : ev.bids ≠ [] ∨ ev.asks ≠ [] := by
  unfold hlHandleL2Book at h
  split_ifs at h <;>
    first
      | exact publishIfNonempty_nonempty _ _ h
      | simp at h

/-- C3 (counterexample): the Polymarket handler publishes a book snapshot
with empty bids and empty asks - the claimed invariant
`!bids.empty() ∨ !asks.empty()` fails for the Polymarket connector, which has
no non-empty guard before publishing. -/
theorem C3_counterexample :
    polymarket_processBookSnapshot true { assetId := some "tok", bids := [], asks := [] } =
      some { symbol := "tok", bids := [], asks := [] } ∧
    (polymarket_processBookSnapshot true
        { assetId := some "tok", bids := [], asks := [] }).map
      (fun ev => ev.bids.isEmpty && ev.asks.isEmpty) = some true :=
  ⟨rfl, rfl⟩

/-- C3 (amended): every book event published by the Bybit, Bitget and
Hyperliquid handlers has a non-empty bid or ask side; the Polymarket handler
publishes every processed snapshot unconditionally (also when both parsed
sides are empty). -/
theorem C3_book_events_nonempty_guarded
    (pool1 pool2 pool3 : Bool) (d : BybitBookData) (f : BitgetBookFrame) (g : HlBookFrame)
    (s : PmBookSnapshot) (tok : String) (ev1 ev2 ev3 : BookUpdate)
    (h1 : bybitHandleOrderbook pool1 d = some ev1)
    (h2 : (bitgetHandleBooks pool2 f).1 = some ev2)
    (h3 : (hlHandleL2Book pool3 g).1 = some ev3)
    (h4 : s.assetId = some tok) :
    (ev1.bids ≠ [] ∨ ev1.asks ≠ []) ∧
    (ev2.bids ≠ [] ∨ ev2.asks ≠ []) ∧
    (ev3.bids ≠ [] ∨ ev3.asks ≠ []) ∧
    polymarket_processBookSnapshot true s =
      some { symbol := tok, bids := pmParseLevels s.bids, asks := pmParseLevels s.asks } :=
  ⟨bybit_orderbook_nonempty _ _ _ h1, bitget_books_nonempty _ _ _ h2,
   hl_l2book_nonempty _ _ _ h3, by unfold polymarket_processBookSnapshot; rw [h4]; rfl⟩

theorem C3_book_events_nonempty_guarded_witness :
    (([("30000.5", "0.1")] : List (String × String)) ≠ [] ∨
      ([("30001.0", "0.2")] : List (String × String)) ≠ []) ∧
    (([("30000", "1")] : List (String × String)) ≠ [] ∨ ([] : List (String × String)) ≠ []) ∧
    (([("30000", "1")] : List (String × String)) ≠ [] ∨
      ([("30001", "2")] : List (String × String)) ≠ []) ∧
    polymarket_processBookSnapshot true { assetId := some "tok", bids := [], asks := [] } =
      some { symbol := "tok", bids := pmParseLevels [], asks := pmParseLevels [] } :=
  C3_book_events_nonempty_guarded true true true
    { s := "BTCUSDT", typeField := some "snapshot",
      b := some [("30000.5", "0.1")], a := some [("30001.0", "0.2")] }
    { action := none, instId := "BTCUSDT",
      data := [{ bids := some [("30000", "1")], asks := none, ts := some "1700000000000" }] }
    { coin := "BTC", time := some 1700000000000,
      levels := [[some ("30000", "1")], [some ("30001", "2")]] }
    { assetId := some "tok", bids := [], asks := [] } "tok"
    { symbol := "BTCUSDT", type := BookUpdateType.SNAPSHOT,
      bids := [("30000.5", "0.1")], asks := [("30001.0", "0.2")], exchangeTsNs := 0 }
    { symbol := "BTCUSDT", type := BookUpdateType.SNAPSHOT,
      bids := [("30000", "1")], asks := [], exchangeTsNs := 1700000000000000000 }
    { symbol := "BTC", type := BookUpdateType.SNAPSHOT,
      bids := [("30000", "1")], asks := [("30001", "2")], exchangeTsNs := 1700000000000000000 }
    (by decide) (by decide) (by decide) rfl

/-- C4 (counterexample): the Bybit handler does not skip a row whose price
fails to parse - the row built from "not_a_number" (for which
`safeParseDouble` has no value) is still emitted in the published event,
because the Bybit handler converts rows with bare `strtod` and never
validates them. -/
theorem C4_counterexample :
    bybitHandleOrderbook true
        { s := "BTCUSDT", typeField := some "snapshot",
          b := some [("not_a_number", "1")], a := some [] } =
      some { symbol := "BTCUSDT", type := BookUpdateType.SNAPSHOT,
             bids := [("not_a_number", "1")], asks := [], exchangeTsNs := 0 } ∧
    safeParseDouble "not_a_number" = none := by
  refine ⟨rfl, by decide⟩

/-- Helper: an entry whose price or size fails to parse yields no Bitget
trade event. -/
theorem bitgetTradeEventOf_none (instId : String) (e : BitgetTradeEntry)
    (hbad : safeParseDouble e.price = none ∨ safeParseDouble e.size = none) :
    bitgetTradeEventOf instId e = none := by
  unfold bitgetTradeEventOf
  rcases h1 : safeParseDouble e.price with _ | p
  · rfl
  · rcases h2 : safeParseDouble e.size with _ | q
    · simp [h1, h2]
    · rcases hbad with h | h
      · rw [h1] at h
        cases h
      · rw [h2] at h
        cases h

/-- Helper: the invalid-entry warning predicate holds for a bad entry. -/
theorem bitget_trade_invalid_pred (e : BitgetTradeEntry)
    (hbad : safeParseDouble e.price = none ∨ safeParseDouble e.size = none) :
    ((safeParseDouble e.price).isSome && (safeParseDouble e.size).isSome) = false := by
  rcases hbad with h | h <;> simp [h]

/-- C4 (amended): the Bitget trade loop, the Bitget book-level loop and the
Hyperliquid level loop - all built on `safeParseDouble`, which rejects
partial numeric parses - skip exactly the rows whose price or size fails to
parse, with one warning each, while the remaining rows of the same frame
are still emitted and the frame is never dropped; the spec scenario with
one bad-price entry and one valid sell entry yields exactly one
`TradeEvent` with `is_buy = false` and `exchange_ts_ns =
1_700_000_000_001_000_000` and one warning.  The Polymarket level loop also
drops a row whose price fails to parse (the value defaults to 0 and the
`price > 0 && size > 0` filter removes it) but logs no warning.  The Bybit
handler, however, converts rows with bare `strtod`, accepts partial parses
and never skips a row (see the counterexample). -/
theorem C4_invalid_row_skipped
    (instId : String) (pre post : List BitgetTradeEntry) (e : BitgetTradeEntry)
    (rows rows2 : List (String × String)) (r : String × String)
    (rows3 rows4 : List (Option (String × String))) (r2 : String × String)
    (pre2 post2 : List PmLevel) (ps ss : String)
    (hbad : safeParseDouble e.price = none ∨ safeParseDouble e.size = none)
    (hrow : validLevel r = false) (hrow2 : validLevel r2 = false)
    (hpm : safeParseDouble ps = none) :
    (bitgetHandleTrade instId (pre ++ e :: post)).1 =
      (bitgetHandleTrade instId pre).1 ++ (bitgetHandleTrade instId post).1 ∧
    (bitgetHandleTrade instId (pre ++ e :: post)).2 =
      (bitgetHandleTrade instId pre).2 + 1 + (bitgetHandleTrade instId post).2 ∧
    (bitgetParseLevels (rows ++ r :: rows2)).1 =
      (bitgetParseLevels rows).1 ++ (bitgetParseLevels rows2).1 ∧
    (bitgetParseLevels (rows ++ r :: rows2)).2 =
      (bitgetParseLevels rows).2 + 1 + (bitgetParseLevels rows2).2 ∧
    (hlParseLevels (rows3 ++ some r2 :: rows4)).1 =
      (hlParseLevels rows3).1 ++ (hlParseLevels rows4).1 ∧
    (hlParseLevels (rows3 ++ some r2 :: rows4)).2 =
      (hlParseLevels rows3).2 + 1 + (hlParseLevels rows4).2 ∧
    pmParseLevels (pre2 ++ { price := some ps, size := some ss } :: post2) =
      pmParseLevels pre2 ++ pmParseLevels post2 ∧
    bitgetHandleTrade "BTCUSDT"
        [{ price := "not_a_number", size := "1", side := "buy", ts := some "1700000000000" },
         { price := "30000", size := "0.1", side := "sell", ts := some "1700000000001" }] =
      ([{ symbol := "BTCUSDT", price := "30000", quantity := "0.1", isBuy := false,
          exchangeTsNs := 1700000000001000000 }], 1) ∧
    safeParseDouble "30000.5abc" = none := by
  refine ⟨?_, ?_, ?_, ?_, ?_, ?_, ?_, by decide, by decide⟩
  · simp only [bitgetHandleTrade]
    rw [List.filterMap_append]
    simp [List.filterMap_cons, bitgetTradeEventOf_none instId e hbad]
  · simp only [bitgetHandleTrade]
    simp [List.filter_append, List.filter_cons]
    rw [if_pos hbad]
    simp
    omega
  · simp only [bitgetParseLevels]
    simp [List.filter_append, List.filter_cons, hrow]
  · simp only [bitgetParseLevels]
    simp [List.filter_append, List.filter_cons, hrow]
    omega
  · simp only [hlParseLevels]
    rw [List.filterMap_append]
    simp [List.filterMap_cons, hrow2]
  · simp only [hlParseLevels]
    simp [List.filter_append, List.filter_cons, hrow2]
    omega
  · simp only [pmParseLevels]
    rw [List.filterMap_append]
    have h0 : pmLevelValue (some ps) = 0 := by simp [pmLevelValue, hpm]
    simp [List.filterMap_cons, h0]

theorem C4_invalid_row_skipped_witness :
    ((bitgetHandleTrade "BTCUSDT"
        ([] ++ { price := "not_a_number", size := "1", side := "buy",
                 ts := some "1700000000000" } ::
          [{ price := "30000", size := "0.1", side := "sell", ts := some "1700000000001" }])).1 =
      (bitgetHandleTrade "BTCUSDT" []).1 ++
        (bitgetHandleTrade "BTCUSDT"
          [{ price := "30000", size := "0.1", side := "sell", ts := some "1700000000001" }]).1 ∧
    (bitgetHandleTrade "BTCUSDT"
        ([] ++ { price := "not_a_number", size := "1", side := "buy",
                 ts := some "1700000000000" } ::
          [{ price := "30000", size := "0.1", side := "sell", ts := some "1700000000001" }])).2 =
      (bitgetHandleTrade "BTCUSDT" []).2 + 1 +
        (bitgetHandleTrade "BTCUSDT"
          [{ price := "30000", size := "0.1", side := "sell", ts := some "1700000000001" }]).2 ∧
    (bitgetParseLevels ([] ++ ("bad", "1") :: [("30000", "1")])).1 =
      (bitgetParseLevels []).1 ++ (bitgetParseLevels [("30000", "1")]).1 ∧
    (bitgetParseLevels ([] ++ ("bad", "1") :: [("30000", "1")])).2 =
      (bitgetParseLevels []).2 + 1 + (bitgetParseLevels [("30000", "1")]).2 ∧
    (hlParseLevels ([] ++ some ("bad", "1") :: [some ("30000", "1")])).1 =
      (hlParseLevels []).1 ++ (hlParseLevels [some ("30000", "1")]).1 ∧
    (hlParseLevels ([] ++ some ("bad", "1") :: [some ("30000", "1")])).2 =
      (hlParseLevels []).2 + 1 + (hlParseLevels [some ("30000", "1")]).2 ∧
    pmParseLevels ([] ++ { price := some "bad", size := some "10" } ::
        [{ price := some "0.5", size := some "10" }]) =
      pmParseLevels [] ++ pmParseLevels [{ price := some "0.5", size := some "10" }] ∧
    bitgetHandleTrade "BTCUSDT"
        [{ price := "not_a_number", size := "1", side := "buy", ts := some "1700000000000" },
         { price := "30000", size := "0.1", side := "sell", ts := some "1700000000001" }] =
      ([{ symbol := "BTCUSDT", price := "30000", quantity := "0.1", isBuy := false,
          exchangeTsNs := 1700000000001000000 }], 1) ∧
    safeParseDouble "30000.5abc" = none) :=
  C4_invalid_row_skipped "BTCUSDT" []
    [{ price := "30000", size := "0.1", side := "sell", ts := some "1700000000001" }]
    { price := "not_a_number", size := "1", side := "buy", ts := some "1700000000000" }
    [] [("30000", "1")] ("bad", "1")
    [] [some ("30000", "1")] ("bad", "1")
    [] [{ price := some "0.5", size := some "10" }] "bad" "10"
    (by decide) (by decide) (by decide) (by decide)

/-! ## Timeout tracker lemmas -/

/-- Helper: `_pending[id] = op` on a map already holding `id` keeps the key
list unchanged. -/
theorem updatePending_keys_mem (m : List (Nat × PendingOp)) (id : Nat) (op : PendingOp)
    (h : id ∈ m.map Prod.fst) :
    (updatePending m id op).map Prod.fst = m.map Prod.fst := by
  induction m with
  | nil => simp at h
  | cons kv tl ih =>
      by_cases hk : kv.1 = id
      · simp [updatePending, hk]
      · have : id ∈ tl.map Prod.fst := by
          rcases (by simpa using h) with h1 | h1
          · exact absurd h1.symm hk
          · simpa using h1
        simp [updatePending, hk, ih this]

/-- Helper: `_pending[id] = op` on a map without `id` appends the entry. -/
theorem updatePending_not_mem (m : List (Nat × PendingOp)) (id : Nat) (op : PendingOp)
    (h : id ∉ m.map Prod.fst) :
    updatePending m id op = m ++ [(id, op)] := by
  induction m with
  | nil => simp [updatePending]
  | cons kv tl ih =>
      have hk : kv.1 ≠ id := by
        intro he
        exact h (by simp [he])
      have : id ∉ tl.map Prod.fst := by
        intro hm
        exact h (by simp [hm])
      simp [updatePending, hk, ih this]

/-- Helper: `_pending[id] = op` preserves key uniqueness. -/
theorem updatePending_nodup (m : List (Nat × PendingOp)) (id : Nat) (op : PendingOp)
    (h : (m.map Prod.fst).Nodup) : ((updatePending m id op).map Prod.fst).Nodup := by
  by_cases hm : id ∈ m.map Prod.fst
  · rw [updatePending_keys_mem m id op hm]
    exact h
  · rw [updatePending_not_mem m id op hm]
    simp [List.nodup_append, h, hm]

/-- Helper: after `_pending[id] = op` the entry stored under `id` is `op`. -/
theorem updatePending_find (m : List (Nat × PendingOp)) (id : Nat) (op : PendingOp) :
    (updatePending m id op).find? (fun kv => kv.1 == id) = some (id, op) := by
  induction m with
  | nil => simp [updatePending]
  | cons kv tl ih =>
      by_cases hk : kv.1 = id
      · simp [updatePending, hk, List.find?]
      · simp [updatePending, hk, List.find?, ih]

/-- Helper: `_pending[id] = op` preserves key/orderId consistency when the
new entry is keyed by its own order id. -/
theorem updatePending_consistent (m : List (Nat × PendingOp)) (id : Nat) (op : PendingOp)
    (hm : ∀ kv ∈ m, kv.2.orderId = kv.1) (hop : op.orderId = id) :
    ∀ kv ∈ updatePending m id op, kv.2.orderId = kv.1 := by
  induction m with
  | nil =>
      intro kv hkv
      simp [updatePending] at hkv
      simp [hkv, hop]
  | cons kv0 tl ih =>
      intro kv hkv
      by_cases hk : kv0.1 = id
      · simp [updatePending, hk] at hkv
        rcases hkv with hkv | hkv
        · simp [hkv, hop]
        · exact hm kv (by simp [hkv])
      · simp only [updatePending, hk, if_false, ite_false, List.mem_cons] at hkv
        rcases hkv with hkv | hkv
        · exact hm kv (by simp [hkv])
        · exact ih (fun kv2 h2 => hm kv2 (by simp [h2])) kv hkv

/-- Helper: a filtered pending map keeps key uniqueness and consistency. -/
theorem filter_pending_invariant (m : List (Nat × PendingOp)) (p : Nat × PendingOp → Bool)
    (h1 : (m.map Prod.fst).Nodup) (h2 : ∀ kv ∈ m, kv.2.orderId = kv.1) :
    ((m.filter p).map Prod.fst).Nodup ∧ ∀ kv ∈ m.filter p, kv.2.orderId = kv.1 :=
  ⟨h1.sublist ((m.filter_sublist).map Prod.fst),
   fun kv hkv => h2 kv (List.mem_of_mem_filter hkv)⟩

/-- Helper: every operation of the tracker preserves key uniqueness, and the
stored `PendingOp.orderId` always equals its key. -/
theorem tracker_invariant (cfg : OrderTimeoutConfig) (t : TimeoutOrderTracker)
    (h : TrackerReachable cfg t) :
    (pendingKeys t).Nodup ∧ ∀ kv ∈ t.pending, kv.2.orderId = kv.1 := by
  induction h with
  | init => simp [pendingKeys, mkTimeoutOrderTracker]
  | trackSubmit t id now _ ih =>
      exact ⟨updatePending_nodup _ _ _ ih.1,
        updatePending_consistent _ _ _ ih.2 rfl⟩
  | trackCancel t id now _ ih =>
      exact ⟨updatePending_nodup _ _ _ ih.1,
        updatePending_consistent _ _ _ ih.2 rfl⟩
  | trackReplace t id now _ ih =>
      exact ⟨updatePending_nodup _ _ _ ih.1,
        updatePending_consistent _ _ _ ih.2 rfl⟩
  | clearPending t id _ ih =>
      exact filter_pending_invariant _ _ ih.1 ih.2
  | checkTimeouts t now _ ih =>
      exact filter_pending_invariant _ _ ih.1 ih.2
  | start t _ ih =>
      rw [TimeoutOrderTracker.start]
      split_ifs <;> exact ih
  | stop t _ ih =>
      rw [TimeoutOrderTracker.stop]
      split_ifs <;> exact ih

/-- Helper: under the `REJECT` policy, entries keyed by other order ids
contribute no `onReject` invocation for `id`. -/
theorem reject_actions_other (cfg : OrderTimeoutConfig) (hpol : cfg.policy = .REJECT)
    (id : Nat) (l2 : List (Nat × PendingOp))
    (hne : ∀ kv ∈ l2, kv.1 ≠ id) (hcons : ∀ kv ∈ l2, kv.2.orderId = kv.1) :
    ((l2.map (·.2)).map (timeoutActions cfg)).flatten.filter (isRejectFor id) = [] := by
  induction l2 with
  | nil => simp
  | cons kv tl ih =>
      have h1 : kv.2.orderId ≠ id := by
        rw [hcons kv (by simp)]
        exact hne kv (by simp)
      have ih2 := ih (fun kv2 h2 => hne kv2 (by simp [h2])) (fun kv2 h2 => hcons kv2 (by simp [h2]))
      simp only [List.map_cons, List.flatten_cons, List.filter_append, ih2, List.append_nil]
      cases hcb : cfg.hasOnReject <;>
        simp [timeoutActions, hpol, hcb, isRejectFor, h1]

/-- Helper: one checker pass under the `REJECT` policy fires exactly one
`onReject(id, "<op> timeout")` for a timed-out entry `(id, op)` of a
well-formed pending map, and the surviving map holds no entry for `id`. -/
theorem reject_filter_core (cfg : OrderTimeoutConfig) (now : Int)
    (hpol : cfg.policy = .REJECT) (hcb : cfg.hasOnReject = true) :
    ∀ (l : List (Nat × PendingOp)) (id : Nat) (op : PendingOp),
      (l.map Prod.fst).Nodup → (∀ kv ∈ l, kv.2.orderId = kv.1) → (id, op) ∈ l →
      timedOutPred cfg now (id, op) = true →
      (((l.filter (timedOutPred cfg now)).map (·.2)).map (timeoutActions cfg)).flatten.filter
          (isRejectFor id) =
        [TrackerAction.rejectCall id (opTypeToString op.opType ++ " timeout")] ∧
      ∀ kv ∈ l.filter (fun kv => !timedOutPred cfg now kv), kv.1 ≠ id := by
  intro l
  induction l with
  | nil =>
      intro id op _ _ hmem _
      simp at hmem
  | cons hd tl ih =>
      intro id op hnodup hcons hmem htime
      rcases List.mem_cons.mp hmem with heq | hmem2
      · cases heq.symm
        have hidtl : id ∉ tl.map Prod.fst := by
          have := hnodup
          simp only [List.map_cons, List.nodup_cons] at this
          exact this.1
        have hne : ∀ kv ∈ tl.filter (timedOutPred cfg now), kv.1 ≠ id := by
          intro kv hkv he
          exact hidtl (List.mem_map.mpr ⟨kv, List.mem_of_mem_filter hkv, he⟩)
        have hcons2 : ∀ kv ∈ tl.filter (timedOutPred cfg now), kv.2.orderId = kv.1 :=
          fun kv hkv => hcons kv (by simp [List.mem_of_mem_filter hkv])
        have hoid : op.orderId = id := hcons (id, op) (by simp)
        constructor
        · simp only [List.filter_cons, htime, if_true, List.map_cons, List.flatten_cons,
            List.filter_append, ite_true]
          rw [reject_actions_other cfg hpol id _ hne hcons2]
          simp [timeoutActions, hpol, hcb, isRejectFor, hoid]
        · intro kv hkv
          simp only [List.filter_cons, htime, Bool.not_true, if_false, ite_false] at hkv
          intro he
          exact hidtl (List.mem_map.mpr ⟨kv, List.mem_of_mem_filter hkv, he⟩)
      · have hhd : hd.1 ≠ id := by
          have h1 : hd.1 ∉ tl.map Prod.fst := by
            have := hnodup
            simp only [List.map_cons, List.nodup_cons] at this
            exact this.1
          intro he
          exact h1 (he ▸ List.mem_map.mpr ⟨(id, op), hmem2, rfl⟩)
        have ihr := ih id op
          (by
            have := hnodup
            simp only [List.map_cons, List.nodup_cons] at this
            exact this.2)
          (fun kv hkv => hcons kv (by simp [hkv])) hmem2 htime
        have hhdoid : hd.2.orderId ≠ id := by
          rw [hcons hd (by simp)]
          exact hhd
        constructor
        · cases hp : timedOutPred cfg now hd
          · simpa [List.filter_cons, hp] using ihr.1
          · simp only [List.filter_cons, hp, if_true, List.map_cons, List.flatten_cons,
              List.filter_append, ite_true]
            rw [ihr.1]
            cases hcb2 : cfg.hasOnReject <;>
              simp [timeoutActions, hpol, hcb2, isRejectFor, hhdoid]
        · intro kv hkv
          cases hp : timedOutPred cfg now hd
          · simp only [List.filter_cons, hp, Bool.not_false, if_true, ite_true,
              List.mem_cons] at hkv
            rcases hkv with hkv | hkv
            · rw [hkv]
              exact hhd
            · exact ihr.2 kv hkv
          · simp only [List.filter_cons, hp, Bool.not_true, if_false, ite_false] at hkv
            exact ihr.2 kv hkv

/-- C5: under policy `REJECT` with `onReject` set, when a checker pass finds
a pending entry whose elapsed time reaches its per-operation timeout
(`getTimeoutMs` selects the submit/cancel/replace deadline), that entry is
removed from the pending map, `onReject` is invoked exactly once with
`(order_id, "<op> timeout")`, and a subsequent `clearPending(order_id)`
leaves the state unchanged. -/
theorem C5_reject_timeout_fires_once (t : TimeoutOrderTracker) (now : Int) (id : Nat)
    (op : PendingOp)
    (hpol : t.config.policy = TimeoutPolicy.REJECT) (hcb : t.config.hasOnReject = true)
    (hnodup : (pendingKeys t).Nodup) (hcons : ∀ kv ∈ t.pending, kv.2.orderId = kv.1)
    (hmem : (id, op) ∈ t.pending)
    (helap : getTimeoutMs t.config op.opType ≤ now - op.startTime) :
    (t.checkTimeouts now).1.hasPending id = false ∧
    (t.checkTimeouts now).2.filter (isRejectFor id) =
      [TrackerAction.rejectCall id (opTypeToString op.opType ++ " timeout")] ∧
    (t.checkTimeouts now).1.clearPending id = (t.checkTimeouts now).1 := by
  have htime : timedOutPred t.config now (id, op) = true := by
    simp only [timedOutPred]
    exact decide_eq_true helap
  have hc := reject_filter_core t.config now hpol hcb t.pending id op hnodup hcons hmem htime
  refine ⟨?_, ?_, ?_⟩
  · simp only [TimeoutOrderTracker.checkTimeouts, TimeoutOrderTracker.hasPending]
    rw [List.any_eq_false]
    intro kv hkv
    simp only [decide_eq_true_eq]
    exact hc.2 kv hkv
  · exact hc.1
  · simp only [TimeoutOrderTracker.checkTimeouts, TimeoutOrderTracker.clearPending]
    rw [List.filter_eq_self.mpr]
    intro kv hkv
    simp only [ne_eq, decide_not, Bool.not_eq_true', decide_eq_false_iff_not]
    exact hc.2 kv hkv

theorem C5_reject_timeout_fires_once_witness :
    (((mkTimeoutOrderTracker
        { submitTimeoutMs := 100, cancelTimeoutMs := 3000, replaceTimeoutMs := 5000,
          checkIntervalMs := 10, policy := TimeoutPolicy.REJECT, hasOnTimeout := false,
          hasOnReject := true }).trackSubmit 42 0).checkTimeouts 200).1.hasPending 42 = false ∧
    (((mkTimeoutOrderTracker
        { submitTimeoutMs := 100, cancelTimeoutMs := 3000, replaceTimeoutMs := 5000,
          checkIntervalMs := 10, policy := TimeoutPolicy.REJECT, hasOnTimeout := false,
          hasOnReject := true }).trackSubmit 42 0).checkTimeouts 200).2.filter (isRejectFor 42) =
      [TrackerAction.rejectCall 42 (opTypeToString OpType.SUBMIT ++ " timeout")] ∧
    ((((mkTimeoutOrderTracker
        { submitTimeoutMs := 100, cancelTimeoutMs := 3000, replaceTimeoutMs := 5000,
          checkIntervalMs := 10, policy := TimeoutPolicy.REJECT, hasOnTimeout := false,
          hasOnReject := true }).trackSubmit 42 0).checkTimeouts 200).1.clearPending 42 =
      (((mkTimeoutOrderTracker
        { submitTimeoutMs := 100, cancelTimeoutMs := 3000, replaceTimeoutMs := 5000,
          checkIntervalMs := 10, policy := TimeoutPolicy.REJECT, hasOnTimeout := false,
          hasOnReject := true }).trackSubmit 42 0).checkTimeouts 200).1) :=
  C5_reject_timeout_fires_once
    ((mkTimeoutOrderTracker
        { submitTimeoutMs := 100, cancelTimeoutMs := 3000, replaceTimeoutMs := 5000,
          checkIntervalMs := 10, policy := TimeoutPolicy.REJECT, hasOnTimeout := false,
          hasOnReject := true }).trackSubmit 42 0) 200 42 ⟨42, OpType.SUBMIT, 0⟩
    rfl rfl (by decide) (by decide) (by decide) (by decide)

/-- C6: in every reachable tracker state the pending map holds at most one
entry per order id (its key list is duplicate-free); `trackSubmit`,
`trackCancel` and `trackReplace` on an id that is already pending replace the
entry (fresh operation type and start time) without growing the map; and
`clearPending` is idempotent - on an unknown or already-cleared id it leaves
the state unchanged. -/
theorem C6_pending_unique_replace_idempotent (cfg : OrderTimeoutConfig)
    (t : TimeoutOrderTracker) (h : TrackerReachable cfg t) (id : Nat) (now : Int) :
    (pendingKeys t).Nodup ∧
    (t.hasPending id = true →
      (t.trackSubmit id now).pendingCount = t.pendingCount ∧
      (t.trackCancel id now).pendingCount = t.pendingCount ∧
      (t.trackReplace id now).pendingCount = t.pendingCount) ∧
    (t.trackSubmit id now).pending.find? (fun kv => kv.1 == id) =
      some (id, ⟨id, OpType.SUBMIT, now⟩) ∧
    (t.trackCancel id now).pending.find? (fun kv => kv.1 == id) =
      some (id, ⟨id, OpType.CANCEL, now⟩) ∧
    (t.trackReplace id now).pending.find? (fun kv => kv.1 == id) =
      some (id, ⟨id, OpType.REPLACE, now⟩) ∧
    (t.clearPending id).clearPending id = t.clearPending id ∧
    (t.hasPending id = false → t.clearPending id = t) := by
  obtain ⟨hnodup, -⟩ := tracker_invariant cfg t h
  refine ⟨hnodup, ?_, updatePending_find t.pending id _, updatePending_find t.pending id _,
    updatePending_find t.pending id _, ?_, ?_⟩
  · intro hmem
    have hm : id ∈ t.pending.map Prod.fst := by
      simp only [TimeoutOrderTracker.hasPending, List.any_eq_true] at hmem
      rcases hmem with ⟨kv, hkv, he⟩
      simp only [decide_eq_true_eq] at he
      exact List.mem_map.mpr ⟨kv, hkv, he⟩
    have hlen : ∀ op : PendingOp, (updatePending t.pending id op).length = t.pending.length := by
      intro op
      have := congrArg List.length (updatePending_keys_mem t.pending id op hm)
      simpa using this
    refine ⟨?_, ?_, ?_⟩ <;>
      simp [TimeoutOrderTracker.pendingCount, TimeoutOrderTracker.trackSubmit,
        TimeoutOrderTracker.trackCancel, TimeoutOrderTracker.trackReplace, hlen]
  · simp [TimeoutOrderTracker.clearPending, List.filter_filter]
  · intro hno
    simp only [TimeoutOrderTracker.hasPending, List.any_eq_false] at hno
    have hself : List.filter (fun kv => !decide (kv.1 = id)) t.pending = t.pending :=
      List.filter_eq_self.mpr (fun kv hkv => by simpa using hno kv hkv)
    simp [TimeoutOrderTracker.clearPending, hself]

theorem C6_pending_unique_replace_idempotent_witness :
    (pendingKeys ((mkTimeoutOrderTracker {}).trackSubmit 7 1)).Nodup ∧
    (((mkTimeoutOrderTracker {}).trackSubmit 7 1).hasPending 7 = true →
      (((mkTimeoutOrderTracker {}).trackSubmit 7 1).trackSubmit 7 5).pendingCount =
        ((mkTimeoutOrderTracker {}).trackSubmit 7 1).pendingCount ∧
      (((mkTimeoutOrderTracker {}).trackSubmit 7 1).trackCancel 7 5).pendingCount =
        ((mkTimeoutOrderTracker {}).trackSubmit 7 1).pendingCount ∧
      (((mkTimeoutOrderTracker {}).trackSubmit 7 1).trackReplace 7 5).pendingCount =
        ((mkTimeoutOrderTracker {}).trackSubmit 7 1).pendingCount) ∧
    (((mkTimeoutOrderTracker {}).trackSubmit 7 1).trackSubmit 7 5).pending.find?
        (fun kv => kv.1 == 7) = some (7, ⟨7, OpType.SUBMIT, 5⟩) ∧
    (((mkTimeoutOrderTracker {}).trackSubmit 7 1).trackCancel 7 5).pending.find?
        (fun kv => kv.1 == 7) = some (7, ⟨7, OpType.CANCEL, 5⟩) ∧
    (((mkTimeoutOrderTracker {}).trackSubmit 7 1).trackReplace 7 5).pending.find?
        (fun kv => kv.1 == 7) = some (7, ⟨7, OpType.REPLACE, 5⟩) ∧
    ((((mkTimeoutOrderTracker {}).trackSubmit 7 1).clearPending 7).clearPending 7 =
      ((mkTimeoutOrderTracker {}).trackSubmit 7 1).clearPending 7) ∧
    (((mkTimeoutOrderTracker {}).trackSubmit 7 1).hasPending 7 = false →
      ((mkTimeoutOrderTracker {}).trackSubmit 7 1).clearPending 7 =
        (mkTimeoutOrderTracker {}).trackSubmit 7 1) :=
  C6_pending_unique_replace_idempotent {} ((mkTimeoutOrderTracker {}).trackSubmit 7 1)
    (TrackerReachable.trackSubmit _ 7 1 TrackerReachable.init) 7 5

/-- C7: when the token bucket has no token, `tryAcquire` under `REJECT` warns
and returns false; under `WAIT` it sleeps for the token-deficit duration,
issues one unconditional take and returns true; under `CALLBACK` (with the
callback set) it invokes `onRateLimited(orderId, waitTime)` and returns
false.  The disabled variant `NoRateLimitPolicy::tryAcquire` returns true
for every order id. -/
theorem C7_rate_limit_policies (limiter : LimiterProbe) (c : RateLimitConfig) (id : Nat)
    (hno : limiter.tokenAvailable = false) :
    (c.policy = RateLimitPolicy.REJECT →
      activeTryAcquire (some limiter) c id = (false, [RateLimitEffect.warnLog])) ∧
    (c.policy = RateLimitPolicy.WAIT →
      activeTryAcquire (some limiter) c id =
        (true, [RateLimitEffect.sleepFor limiter.waitTime, RateLimitEffect.acquireAttempt])) ∧
    (c.policy = RateLimitPolicy.CALLBACK → c.hasOnRateLimited = true →
      activeTryAcquire (some limiter) c id =
        (false, [RateLimitEffect.rateLimitedCallback id limiter.waitTime])) ∧
    noRateLimit_tryAcquire id = true :=
  ⟨fun hp => by simp [activeTryAcquire, hno, hp],
   fun hp => by simp [activeTryAcquire, hno, hp],
   fun hp hcb => by simp [activeTryAcquire, hno, hp, hcb],
   rfl⟩

theorem C7_rate_limit_policies_witness :
    activeTryAcquire (some ⟨false, 250⟩)
        { capacity := 1, refillRate := 1, policy := RateLimitPolicy.REJECT } 5 =
      (false, [RateLimitEffect.warnLog]) ∧
    activeTryAcquire (some ⟨false, 250⟩)
        { capacity := 1, refillRate := 1, policy := RateLimitPolicy.WAIT } 5 =
      (true, [RateLimitEffect.sleepFor 250, RateLimitEffect.acquireAttempt]) ∧
    activeTryAcquire (some ⟨false, 250⟩)
        { capacity := 1, refillRate := 1, policy := RateLimitPolicy.CALLBACK,
          hasOnRateLimited := true } 5 =
      (false, [RateLimitEffect.rateLimitedCallback 5 250]) ∧
    noRateLimit_tryAcquire 5 = true :=
  ⟨(C7_rate_limit_policies ⟨false, 250⟩
      { capacity := 1, refillRate := 1, policy := RateLimitPolicy.REJECT } 5 rfl).1 rfl,
   (C7_rate_limit_policies ⟨false, 250⟩
      { capacity := 1, refillRate := 1, policy := RateLimitPolicy.WAIT } 5 rfl).2.1 rfl,
   (C7_rate_limit_policies ⟨false, 250⟩
      { capacity := 1, refillRate := 1, policy := RateLimitPolicy.CALLBACK,
        hasOnRateLimited := true } 5 rfl).2.2.1 rfl rfl,
   (C7_rate_limit_policies ⟨false, 250⟩
      { capacity := 1, refillRate := 1, policy := RateLimitPolicy.REJECT } 5 rfl).2.2.2⟩

/-- C8 (counterexample): the `TimeoutOrderTracker` constructor does not fail
on non-positive timeouts - constructing it with `submitTimeoutMs = 0`
succeeds and stores the invalid config (with empty pending state); the
constructor performs no validation at all. -/
theorem C8_counterexample :
    (mkTimeoutOrderTracker
        { submitTimeoutMs := 0, cancelTimeoutMs := 3000, replaceTimeoutMs := 5000,
          checkIntervalMs := 100, policy := TimeoutPolicy.REJECT, hasOnTimeout := false,
          hasOnReject := false }).config.submitTimeoutMs = 0 ∧
    (mkTimeoutOrderTracker
        { submitTimeoutMs := 0, cancelTimeoutMs := 3000, replaceTimeoutMs := 5000,
          checkIntervalMs := 100, policy := TimeoutPolicy.REJECT, hasOnTimeout := false,
          hasOnReject := false }).pending = [] ∧
    OrderTimeoutConfig.isValid
        { submitTimeoutMs := 0, cancelTimeoutMs := 3000, replaceTimeoutMs := 5000,
          checkIntervalMs := 100, policy := TimeoutPolicy.REJECT, hasOnTimeout := false,
          hasOnReject := false } = false :=
  ⟨rfl, rfl, by decide⟩

/-- C8 (amended): constructing the curl session pool from an invalid pool
config (`initial_size < 1`, `initial_size > max_size`, or non-positive
acquire timeout) throws before creating any handle; the timeout tracker's
own constructor performs no validation - instead `ActiveTimeoutPolicy::init`
checks `OrderTimeoutConfig::isValid` and, for non-positive timeouts, creates
no tracker at all (every policy operation is then a no-op), while the bare
constructor stores the config unchecked with empty state. -/
theorem C8_construction_validation (pc : CurlSessionPoolConfig) (tc : OrderTimeoutConfig)
    (hpc : pc.isValid = false) (htc : tc.isValid = false) :
    mkCurlSessionPool pc = Except.error "Invalid CurlSessionPoolConfig" ∧
    activeTimeoutPolicy_init tc = none ∧
    mkTimeoutOrderTracker tc = { config := tc, pending := [], running := false } := by
  refine ⟨?_, ?_, rfl⟩
  · simp [mkCurlSessionPool, hpc]
  · simp [activeTimeoutPolicy_init, htc]

theorem C8_construction_validation_witness :
    mkCurlSessionPool { initialSize := 0, maxSize := 32, acquireTimeoutMs := 5000 } =
      Except.error "Invalid CurlSessionPoolConfig" ∧
    activeTimeoutPolicy_init
        { submitTimeoutMs := 0, cancelTimeoutMs := 3000, replaceTimeoutMs := 5000,
          checkIntervalMs := 100, policy := TimeoutPolicy.REJECT, hasOnTimeout := false,
          hasOnReject := false } = none ∧
    mkTimeoutOrderTracker
        { submitTimeoutMs := 0, cancelTimeoutMs := 3000, replaceTimeoutMs := 5000,
          checkIntervalMs := 100, policy := TimeoutPolicy.REJECT, hasOnTimeout := false,
          hasOnReject := false } =
      { config :=
          { submitTimeoutMs := 0, cancelTimeoutMs := 3000, replaceTimeoutMs := 5000,
            checkIntervalMs := 100, policy := TimeoutPolicy.REJECT, hasOnTimeout := false,
            hasOnReject := false },
        pending := [], running := false } :=
  C8_construction_validation { initialSize := 0, maxSize := 32, acquireTimeoutMs := 5000 }
    { submitTimeoutMs := 0, cancelTimeoutMs := 3000, replaceTimeoutMs := 5000,
      checkIntervalMs := 100, policy := TimeoutPolicy.REJECT, hasOnTimeout := false,
      hasOnReject := false } (by decide) (by decide)

/-- C9: `start` and `stop` are idempotent on the Bybit connector (for a valid
config, a second `start` is a no-op guarded by the atomic exchange and
produces no effects) and on the timeout tracker (a second `start` spawns no
checker thread); `stop` after `stop` is a no-op in both (the second call
observes `running = false` and changes nothing). -/
theorem C9_start_stop_idempotent (s : BybitConnector) (t : TimeoutOrderTracker)
    (hv : s.config.isValid = true) :
    s.start.1.start.1 = s.start.1 ∧ s.start.1.start.2 = [] ∧
    s.stop.1.stop.1 = s.stop.1 ∧ s.stop.1.stop.2 = [] ∧
    t.start.1.start.1 = t.start.1 ∧ t.start.1.start.2 = false ∧
    t.stop.1.stop.1 = t.stop.1 ∧ t.stop.1.stop.2 = false := by
  have hbs : s.start.1.start = (s.start.1, []) := by
    by_cases hr : s.running <;> simp [BybitConnector.start, hv, hr]
  have hbs2 : s.stop.1.stop = (s.stop.1, []) := by
    by_cases hr : s.running <;> simp [BybitConnector.stop, hr]
  have hts : t.start.1.start = (t.start.1, false) := by
    by_cases hr : t.running <;> simp [TimeoutOrderTracker.start, hr]
  have hts2 : t.stop.1.stop = (t.stop.1, false) := by
    by_cases hr : t.running <;> simp [TimeoutOrderTracker.stop, hr]
  exact ⟨by rw [hbs], by rw [hbs], by rw [hbs2], by rw [hbs2],
    by rw [hts], by rw [hts], by rw [hts2], by rw [hts2]⟩

theorem C9_start_stop_idempotent_witness :
    (mkBybitConnector
        { publicEndpoint := "wss://stream.bybit.com/v5/public/linear", privateEndpoint := "",
          symbols := [], reconnectDelayMs := 2000, apiKey := "", apiSecret := "",
          enablePrivate := false }).start.1.start.1 =
      (mkBybitConnector
        { publicEndpoint := "wss://stream.bybit.com/v5/public/linear", privateEndpoint := "",
          symbols := [], reconnectDelayMs := 2000, apiKey := "", apiSecret := "",
          enablePrivate := false }).start.1 ∧
    (mkBybitConnector
        { publicEndpoint := "wss://stream.bybit.com/v5/public/linear", privateEndpoint := "",
          symbols := [], reconnectDelayMs := 2000, apiKey := "", apiSecret := "",
          enablePrivate := false }).start.1.start.2 = [] ∧
    (mkBybitConnector
        { publicEndpoint := "wss://stream.bybit.com/v5/public/linear", privateEndpoint := "",
          symbols := [], reconnectDelayMs := 2000, apiKey := "", apiSecret := "",
          enablePrivate := false }).stop.1.stop.1 =
      (mkBybitConnector
        { publicEndpoint := "wss://stream.bybit.com/v5/public/linear", privateEndpoint := "",
          symbols := [], reconnectDelayMs := 2000, apiKey := "", apiSecret := "",
          enablePrivate := false }).stop.1 ∧
    (mkBybitConnector
        { publicEndpoint := "wss://stream.bybit.com/v5/public/linear", privateEndpoint := "",
          symbols := [], reconnectDelayMs := 2000, apiKey := "", apiSecret := "",
          enablePrivate := false }).stop.1.stop.2 = [] ∧
    (mkTimeoutOrderTracker {}).start.1.start.1 = (mkTimeoutOrderTracker {}).start.1 ∧
    (mkTimeoutOrderTracker {}).start.1.start.2 = false ∧
    (mkTimeoutOrderTracker {}).stop.1.stop.1 = (mkTimeoutOrderTracker {}).stop.1 ∧
    (mkTimeoutOrderTracker {}).stop.1.stop.2 = false :=
  C9_start_stop_idempotent
    (mkBybitConnector
      { publicEndpoint := "wss://stream.bybit.com/v5/public/linear", privateEndpoint := "",
        symbols := [], reconnectDelayMs := 2000, apiKey := "", apiSecret := "",
        enablePrivate := false })
    (mkTimeoutOrderTracker {}) (by decide)
